import Mathlib

/-!
Shallow embedding of the core of the `csv-to-sql-converter` repository
(`src/server.js`, `src/index.js`): column-name sanitisation, type
detection, dialect mapping, SQL value escaping, the validator's NULL and
date-format checks, and batched INSERT rendering.  Cell values coming out
of the CSV parser are modelled as `Option String` (`none` = a missing or
`null`/`undefined` field, `some s` = the raw text).  The JavaScript
`Date.parse` platform function is external to the repository and is kept
as an explicit parameter wherever the code calls it; a concrete model for
ISO `YYYY-MM-DD` strings is provided for evaluation.
-/

set_option maxHeartbeats 1000000

namespace CsvToSql

/-! ## Definitions (shallow embedding of the source) -/

/-- Whitespace characters removed by the JavaScript `String.prototype.trim`
(restricted to the ASCII whitespace relevant to this development). -/
def isWs (c : Char) : Bool :=
  c == ' ' || c == '\t' || c == '\n' || c == '\r' || c == '\x0b' || c == '\x0c'

/-- `\d` of the JavaScript regexes: an ASCII decimal digit. -/
def isDigitCh (c : Char) : Bool :=
  decide (48 ≤ c.toNat) && decide (c.toNat ≤ 57)

/-- The `.trim()` of the source, on character lists: drop leading and
trailing whitespace. -/
def trimChars (cs : List Char) : List Char :=
  ((cs.dropWhile isWs).reverse.dropWhile isWs).reverse

/-- The `.trim()` of the source on strings. -/
def jsTrim (s : String) : String := String.mk (trimChars s.data)

/-- ASCII case of `String.prototype.toLowerCase`, as used by
`sanitizeColumnName` in `server.js` / `index.js`. -/
def jsToLower (c : Char) : Char :=
  if 65 ≤ c.toNat ∧ c.toNat ≤ 90 then Char.ofNat (c.toNat + 32) else c

/-- The character class `[a-z0-9_]` of `sanitizeColumnName`'s
`replace(/[^a-z0-9_]/g, '_')`. -/
def isAllowed (c : Char) : Bool :=
  (decide (97 ≤ c.toNat) && decide (c.toNat ≤ 122)) ||
  (decide (48 ≤ c.toNat) && decide (c.toNat ≤ 57)) ||
  decide (c.toNat = 95)

/-- The `replace(/^(\d)/, '_$1')` step of `sanitizeColumnName`: prefix an
underscore when the first character is a digit. -/
def prefixUnderscore : List Char → List Char
  | [] => []
  | c :: r => if isDigitCh c then '_' :: c :: r else c :: r

/-- `sanitizeColumnName` of `server.js` lines 109-116 (identical in
`index.js`), on character lists: trim, lowercase, replace every character
outside `[a-z0-9_]` with `_`, prefix `_` when the first character is a
digit, truncate to 64 characters. -/
def sanitizeChars (cs : List Char) : List Char :=
  (prefixUnderscore
    (((trimChars cs).map jsToLower).map (fun c => if isAllowed c then c else '_'))).take 64

/-- `sanitizeColumnName` of the source, on strings. -/
def sanitizeColumnName (s : String) : String := String.mk (sanitizeChars s.data)

/-- The null/absent/empty filter of `detectDataType`
(`values.filter(v => v !== null && v !== undefined && v !== '')`):
`none` models `null`/`undefined`/a missing field, `some s` a raw string. -/
def validValues (values : List (Option String)) : List String :=
  values.filterMap (fun v =>
    match v with
    | none => none
    | some s => if s == "" then none else some s)

/-- The `-?` head of the two numeric regexes of `detectDataType`: strip
one optional leading minus. -/
def stripMinus (cs : List Char) : List Char :=
  if cs.head? == some '-' then cs.tail else cs

/-- The part of the string after the first dot (exclusive), used by the
decimal matcher. -/
def afterDot (cs : List Char) : List Char :=
  (cs.dropWhile (fun c => !(c == '.'))).tail

/-- The anchored regex `/^-?\d+$/` of `detectDataType`: an optional
leading minus followed by one or more digits. -/
def matchSignedInt (s : String) : Bool :=
  !(stripMinus s.data).isEmpty && (stripMinus s.data).all isDigitCh

/-- The anchored regex `/^-?\d*\.?\d+$/` of `detectDataType`: an optional
leading minus, zero or more digits, an optional single dot, one or more
digits. -/
def matchSignedDec (s : String) : Bool :=
  if (stripMinus s.data).any (fun c => c == '.') then
    ((stripMinus s.data).takeWhile (fun c => !(c == '.'))).all isDigitCh &&
    !(afterDot (stripMinus s.data)).isEmpty &&
    (afterDot (stripMinus s.data)).all isDigitCh &&
    !((afterDot (stripMinus s.data)).any (fun c => c == '.'))
  else
    !(stripMinus s.data).isEmpty && (stripMinus s.data).all isDigitCh

/-- The running `maxLength = Math.max(maxLength, str.length)` of the
detector loop, over the trimmed valid values. -/
def maxTrimmedLength (vals : List String) : Nat :=
  vals.foldl (fun m v => max m (jsTrim v).length) 0

/-- `Math.ceil(Math.min(Math.max(maxLength * 1.5, 50), 255))` of
`detectDataType` (`1.5 = 3/2` exactly, so rational arithmetic is exact
here). -/
def varcharWidth (maxLength : Nat) : ℤ :=
  Int.ceil (min (max ((maxLength : ℚ) * 3 / 2) 50) 255)

/-- `detectDataType` of `server.js` lines 17-55 (identical in `index.js`
lines 13-36).  The JavaScript `Date.parse`-based test
(`!isNaN(Date.parse(str))`) is the external platform parser, passed in as
`dateParse`. -/
def detectDataType (dateParse : String → Bool) (values : List (Option String)) : String :=
  if (validValues values).isEmpty then "VARCHAR(255)"
  else if (validValues values).all (fun v => matchSignedInt (jsTrim v)) then "INTEGER"
  else if (validValues values).all (fun v => matchSignedDec (jsTrim v)) then "DECIMAL(10,2)"
  else if (validValues values).all (fun v => dateParse (jsTrim v)) then "DATE"
  else "VARCHAR(" ++ toString (varcharWidth (maxTrimmedLength (validValues values))) ++ ")"

/-- `String.prototype.startsWith` of JavaScript. -/
def jsStartsWith (s pre : String) : Bool := pre.data.isPrefixOf s.data

/-- The `postgresql` entry of the static `typeMap` of `convertToDialect`. -/
def postgresqlMap (g : String) : Option String :=
  if g == "INTEGER" then some "INTEGER"
  else if g == "DECIMAL(10,2)" then some "NUMERIC(10,2)"
  else if g == "DATE" then some "DATE"
  else if g == "VARCHAR" then some "VARCHAR"
  else none

/-- The `mysql` entry of the static `typeMap` of `convertToDialect`. -/
def mysqlMap (g : String) : Option String :=
  if g == "INTEGER" then some "INT"
  else if g == "DECIMAL(10,2)" then some "DECIMAL(10,2)"
  else if g == "DATE" then some "DATE"
  else if g == "VARCHAR" then some "VARCHAR"
  else none

/-- The `sqlserver` entry of the static `typeMap` of `convertToDialect`. -/
def sqlserverMap (g : String) : Option String :=
  if g == "INTEGER" then some "INT"
  else if g == "DECIMAL(10,2)" then some "DECIMAL(10,2)"
  else if g == "DATE" then some "DATE"
  else if g == "VARCHAR" then some "VARCHAR"
  else none

/-- The `sqlite` entry of the static `typeMap` of `convertToDialect`. -/
def sqliteMap (g : String) : Option String :=
  if g == "INTEGER" then some "INTEGER"
  else if g == "DECIMAL(10,2)" then some "REAL"
  else if g == "DATE" then some "TEXT"
  else if g == "VARCHAR" then some "TEXT"
  else none

/-- The `oracle` entry of the static `typeMap` of `convertToDialect`. -/
def oracleMap (g : String) : Option String :=
  if g == "INTEGER" then some "NUMBER"
  else if g == "DECIMAL(10,2)" then some "NUMBER(10,2)"
  else if g == "DATE" then some "DATE"
  else if g == "VARCHAR" then some "VARCHAR2"
  else none

/-- `typeMap[dialect] || typeMap.postgresql`: an unknown dialect name
falls back to the postgresql table. -/
def dialectMap (dialect : String) : String → Option String :=
  if dialect == "postgresql" then postgresqlMap
  else if dialect == "mysql" then mysqlMap
  else if dialect == "sqlserver" then sqlserverMap
  else if dialect == "sqlite" then sqliteMap
  else if dialect == "oracle" then oracleMap
  else postgresqlMap

/-- First match of the regex `/\((\d+)\)/` (capture group 1) in a
character list: the first `(` that is followed by one or more digits and
a closing `)` yields those digits. -/
def extractParenDigits : List Char → Option (List Char)
  | [] => none
  | c :: rest =>
      if c == '(' then
        if !(rest.takeWhile isDigitCh).isEmpty &&
            (rest.dropWhile isDigitCh).head? == some ')' then
          some (rest.takeWhile isDigitCh)
        else extractParenDigits rest
      else extractParenDigits rest

/-- `genericType.match(/\((\d+)\)/)?.[1] || '255'` of `convertToDialect`. -/
def varcharSize (genericType : String) : String :=
  match extractParenDigits genericType.data with
  | some ds => String.mk ds
  | none => "255"

/-- `convertToDialect` of `server.js` lines 58-106 (identical in
`index.js` lines 38-57): static per-dialect lookup of the generic tag,
with VARCHAR special-cased on the extracted width, and
`map[genericType] || genericType` falling back to the input verbatim. -/
def convertToDialect (genericType dialect : String) : String :=
  if jsStartsWith genericType "VARCHAR" then
    if dialect == "oracle" then "VARCHAR2(" ++ varcharSize genericType ++ ")"
    else if dialect == "sqlite" then "TEXT"
    else "VARCHAR(" ++ varcharSize genericType ++ ")"
  else
    (dialectMap dialect genericType).getD genericType

/-- The single-quote character (codepoint 39). -/
def squote : Char := Char.ofNat 39

/-- The one-character single-quote string. -/
def squoteStr : String := String.mk [squote]

/-- The NULL guard shared by the escaper
(`value === null || value === undefined || value === ''`). -/
def isNullEquiv (v : Option String) : Bool :=
  match v with
  | none => true
  | some s => s == ""

/-- `str.replace(/'/g, "''")`: double every single quote. -/
def doubleQuotes : List Char → List Char
  | [] => []
  | c :: r => if c == squote then squote :: squote :: doubleQuotes r else c :: doubleQuotes r

/-- `str.replace(/'/g, "''")` on strings. -/
def escapeQuotes (s : String) : String := String.mk (doubleQuotes s.data)

/-- The numeric-family test of `escapeSQLValue` in `index.js` lines
103-109: `INTEGER`, `INT`, `NUMBER` and `REAL` exactly, plus the
`DECIMAL` and `NUMERIC` prefixes.  (The `server.js` revision checks only
`INTEGER` exactly and the `DECIMAL` prefix.) -/
def isNumericDialectType (t : String) : Bool :=
  t == "INTEGER" || t == "INT" || t == "NUMBER" ||
  jsStartsWith t "DECIMAL" || jsStartsWith t "NUMERIC" || t == "REAL"

/-- `escapeSQLValue` of `index.js` lines 103-109: NULL for
null/absent/empty, the trimmed string unquoted for numeric dialect
types, otherwise the trimmed string single-quoted with embedded quotes
doubled. -/
def escapeSQLValue (value : Option String) (dataType : String) : String :=
  match value with
  | none => "NULL"
  | some s =>
      if s == "" then "NULL"
      else if isNumericDialectType dataType then jsTrim s
      else squoteStr ++ escapeQuotes (jsTrim s) ++ squoteStr

/-- The numeric-family predicate as the specification words it
(refinement definition, following the spec's words "integer/decimal/
numeric/real, matched by name prefix", to be compared with
`isNumericDialectType` from the source). -/
def isNumericFamilySpec (t : String) : Bool :=
  jsStartsWith t "INTEGER" || jsStartsWith t "DECIMAL" ||
  jsStartsWith t "NUMERIC" || jsStartsWith t "REAL"

/-- A parsed CSV row: a mapping from header name to raw value (`none`
models a missing key). -/
def Row : Type := String → Option String

/-- `rows.map(row => row[header])`. -/
def columnValues (rows : List Row) (header : String) : List (Option String) :=
  rows.map (fun r => r header)

/-- `Array.prototype.join(sep)`. -/
def joinSep (sep : String) : List String → String
  | [] => ""
  | [x] => x
  | x :: y :: ys => x ++ sep ++ joinSep sep (y :: ys)

/-- Auto-detected column type of the `/convert` handler:
`convertToDialect(detectDataType(columnValues), dialect)`. -/
def autoColumnType (dateParse : String → Bool) (dialect : String)
    (rows : List Row) (header : String) : String :=
  convertToDialect (detectDataType dateParse (columnValues rows header)) dialect

/-- The `columnTypes[header]` computation of the `/convert` handler: a
truthy user override is dialect-converted in place of auto-detection. -/
def resolveColumnType (dateParse : String → Bool)
    (typeOverrides : String → Option String) (dialect : String)
    (rows : List Row) (header : String) : String :=
  match typeOverrides (sanitizeColumnName header) with
  | some o =>
      if o == "" then autoColumnType dateParse dialect rows header
      else convertToDialect o dialect
  | none => autoColumnType dateParse dialect rows header

/-- The `columnDefinitions` of the `/convert` handler:
``  `${sanitizedCol} ${dataType}` `` per header, in order. -/
def columnDefinitions (headers : List String) (columnTypes : String → String) : List String :=
  headers.map (fun h => "  " ++ sanitizeColumnName h ++ " " ++ columnTypes h)

/-- The `CREATE TABLE` text of the `/convert` handler, including the
mysql-only table options. -/
def createTableSQL (tableName : String) (headers : List String)
    (columnTypes : String → String) (dialect : String) : String :=
  ("CREATE TABLE " ++ sanitizeColumnName tableName ++ " (\n") ++
  joinSep ",\n" (columnDefinitions headers columnTypes) ++
  ("\n)" ++ (if dialect == "mysql" then " ENGINE=InnoDB DEFAULT CHARSET=utf8mb4" else "") ++ ";")

/-- The `const batchSize = 100` of the `/convert` handler. -/
def batchSize : Nat := 100

/-- The slicing loop `for (i = 0; i < rows.length; i += batchSize)
rows.slice(i, i + batchSize)`: consecutive chunks of `n` elements.  (The
guard on `n = 0` is unreachable: the source batch size is the constant
100.) -/
def chunksOf {α : Type} (n : Nat) (l : List α) : List (List α) :=
  match l with
  | [] => []
  | x :: xs =>
      if hn0 : n = 0 then []
      else (x :: xs).take n :: chunksOf n ((x :: xs).drop n)
termination_by l.length
decreasing_by
  simp only [List.length_drop, List.length_cons]
  omega

/-- One row's ``  (${values.join(', ')})`` tuple. -/
def rowTuple (headers : List String) (columnTypes : String → String) (row : Row) : String :=
  "  (" ++ joinSep ", " (headers.map (fun h => escapeSQLValue (row h) (columnTypes h))) ++ ")"

/-- One batch's `INSERT INTO <table> (<cols>) VALUES` statement, with its
closing `;` and blank-line separator, exactly as accumulated by the
loop. -/
def insertStatement (sanitizedTableName : String) (headers : List String)
    (columnTypes : String → String) (batch : List Row) : String :=
  "INSERT INTO " ++ sanitizedTableName ++ " (" ++
    joinSep ", " (headers.map sanitizeColumnName) ++ ") VALUES\n" ++
  joinSep ",\n" (batch.map (rowTuple headers columnTypes)) ++ ";\n\n"

/-- The per-batch statements of the `/convert` handler, in loop order. -/
def insertStatements (tableName : String) (headers : List String)
    (columnTypes : String → String) (rows : List Row) : List String :=
  (chunksOf batchSize rows).map
    (insertStatement (sanitizeColumnName tableName) headers columnTypes)

/-- The accumulated `insertSQL` string of the `/convert` handler. -/
def insertSQLText (tableName : String) (headers : List String)
    (columnTypes : String → String) (rows : List Row) : String :=
  String.join (insertStatements tableName headers columnTypes rows)

/-- One structured validation finding (checks without a `details` field
carry the empty string). -/
structure Finding where
  type : String
  column : String
  message : String
  details : String
  severity : String
deriving DecidableEq

/-- `values.filter(v => v === null || v === undefined || v === '').length`. -/
def nullCount (values : List (Option String)) : Nat :=
  (values.filter isNullEquiv).length

/-- Ten times the displayed percentage:
`((nullCount / values.length) * 100).toFixed(1)` rounds the percentage
to one decimal with round-half-up, so the displayed value is
`⌊1000·nullCount/total + 1/2⌋ / 10` (exact-rational idealisation of the
double arithmetic; exact only away from representation ties). -/
def nullPercent10 (nc total : Nat) : ℤ :=
  Int.floor ((1000 * nc : ℚ) / total + 1 / 2)

/-- The `"xx.y"` rendering of `toFixed(1)`. -/
def percentString (p10 : ℤ) : String :=
  toString (p10 / 10) ++ "." ++ toString (p10 % 10)

/-- Check 3 of `runValidation` (`server.js` lines 259-281): the guard
`nullPercentage > 50` compares the `toFixed(1)` string coerced back to a
number, i.e. the rounded percentage. -/
def nullCheckColumn (header : String) (values : List (Option String)) : List Finding :=
  if nullCount values > 0 then
    if nullPercent10 (nullCount values) values.length > 500 then
      [⟨"nulls", header,
        "Column \"" ++ header ++ "\" has " ++ toString (nullCount values) ++
          " NULL/empty values (" ++ percentString (nullPercent10 (nullCount values) values.length) ++ "%)",
        "", "warning"⟩]
    else
      [⟨"nulls", header,
        "Column \"" ++ header ++ "\" has " ++ toString (nullCount values) ++
          " NULL/empty values (" ++ percentString (nullPercent10 (nullCount values) values.length) ++ "%)",
        "", "info"⟩]
  else []

/-- `-` or `/`, the separators of the date surface patterns. -/
def isSepCh (c : Char) : Bool := c == '-' || c == '/'

/-- Exactly `k` digits, then continue with `cont`. -/
def digitsThen (cont : List Char → Bool) : Nat → List Char → Bool
  | 0, rest => cont rest
  | _ + 1, [] => false
  | k + 1, c :: rest => isDigitCh c && digitsThen cont k rest

/-- One separator, then continue with `cont`. -/
def sepThen (cont : List Char → Bool) : List Char → Bool
  | [] => false
  | c :: rest => isSepCh c && cont rest

/-- The always-true continuation (the regexes are unanchored). -/
def thenTrue : List Char → Bool := fun _ => true

/-- `\d{1,2}` then end of pattern. -/
def tail12 (cs : List Char) : Bool :=
  digitsThen thenTrue 1 cs || digitsThen thenTrue 2 cs

/-- `\d{2,4}` then end of pattern. -/
def tail234 (cs : List Char) : Bool :=
  digitsThen thenTrue 2 cs || digitsThen thenTrue 3 cs || digitsThen thenTrue 4 cs

/-- `\d{1,2}[-\/]\d{2,4}` suffix of the second pattern. -/
def tail12sep234 (cs : List Char) : Bool :=
  digitsThen (sepThen tail234) 1 cs || digitsThen (sepThen tail234) 2 cs

/-- A match of `\d{4}[-\/]\d{1,2}[-\/]\d{1,2}` starting here. -/
def matchYMDAt (cs : List Char) : Bool :=
  digitsThen (sepThen (fun r =>
    digitsThen (sepThen tail12) 1 r || digitsThen (sepThen tail12) 2 r)) 4 cs

/-- A match of `\d{1,2}[-\/]\d{1,2}[-\/]\d{2,4}` starting here. -/
def matchDMYAt (cs : List Char) : Bool :=
  digitsThen (sepThen tail12sep234) 1 cs || digitsThen (sepThen tail12sep234) 2 cs

/-- `RegExp.prototype.test` of an unanchored pattern: a match starting at
some position. -/
def existsMatch (m : List Char → Bool) : List Char → Bool
  | [] => m []
  | c :: rest => m (c :: rest) || existsMatch m rest

/-- The lowercase three-letter month names of the third pattern. -/
def monthNames : List (List Char) :=
  [['j', 'a', 'n'], ['f', 'e', 'b'], ['m', 'a', 'r'], ['a', 'p', 'r'],
   ['m', 'a', 'y'], ['j', 'u', 'n'], ['j', 'u', 'l'], ['a', 'u', 'g'],
   ['s', 'e', 'p'], ['o', 'c', 't'], ['n', 'o', 'v'], ['d', 'e', 'c']]

/-- Substring test: `sub` occurs contiguously inside `l`. -/
def containsSub (sub l : List Char) : Bool :=
  existsMatch (fun cs => sub.isPrefixOf cs) l

/-- `/(Jan|Feb|...|Dec)/i.test(str)`: case-insensitive substring. -/
def hasMonthName (s : String) : Bool :=
  monthNames.any (fun m => containsSub m (s.data.map jsToLower))

/-- The date-like surface pattern of check 4 (`server.js` lines
289-295): ISO-like `YYYY-M-D`, `M-D-YYYY` shapes or a month name. -/
def hasDatePattern (s : String) : Bool :=
  existsMatch matchYMDAt s.data || existsMatch matchDMYAt s.data || hasMonthName s

/-- `String.prototype.split("-")` on character lists. -/
def splitOnDash : List Char → List (List Char)
  | [] => [[]]
  | c :: rest =>
      if c == '-' then [] :: splitOnDash rest
      else
        match splitOnDash rest with
        | [] => [[c]]
        | g :: gs => (c :: g) :: gs

/-- Digits to a natural number. -/
def listToNat (cs : List Char) : Nat :=
  cs.foldl (fun n c => 10 * n + (c.toNat - 48)) 0

/-- Gregorian month lengths. -/
def daysInMonth (year month : Nat) : Nat :=
  if month == 2 then
    (if (year % 4 == 0 && year % 100 != 0) || year % 400 == 0 then 29 else 28)
  else if month == 4 || month == 6 || month == 9 || month == 11 then 30
  else 31

/-- Modelled from the spec: the repository calls the platform
`Date.parse` (external code, not under `src/`); per ECMA-262 an ISO
`YYYY-MM-DD` string parses successfully exactly when the month is 01-12
and the day fits the month; shapes other than `YYYY-MM-DD` are not
exercised by the theorems here and are treated as unparseable. -/
def dateParseModel (s : String) : Bool :=
  match splitOnDash s.data with
  | [y, m, d] =>
      decide (y.length = 4) && y.all isDigitCh &&
      decide (m.length = 2) && m.all isDigitCh &&
      decide (d.length = 2) && d.all isDigitCh &&
      decide (1 ≤ listToNat m) && decide (listToNat m ≤ 12) &&
      decide (1 ≤ listToNat d) && decide (listToNat d ≤ daysInMonth (listToNat y) (listToNat m))
  | _ => false

/-- The non-empty values of one column, as check 4 collects them. -/
def nonEmptyColumn (rows : List Row) (header : String) : List String :=
  validValues (columnValues rows header)

/-- The `invalidDates` filter of check 4: surface pattern matches but the
platform date parser fails. -/
def invalidDates (dateParse : String → Bool) (values : List String) : List String :=
  values.filter (fun v => hasDatePattern v && !(dateParse v))

/-- Check 4 of `runValidation` (`server.js` lines 284-322): a column is a
date column when more than half of its non-empty values match the
surface pattern; pattern-matching values that fail to parse yield one
error finding with up to 3 quoted examples. -/
def dateCheckColumn (dateParse : String → Bool) (header : String)
    (values : List String) : List Finding :=
  if values.isEmpty then []
  else if 2 * (values.filter hasDatePattern).length > values.length then
    if (invalidDates dateParse values).isEmpty then []
    else
      [⟨"date_format", header,
        "Column \"" ++ header ++ "\" has " ++
          toString (invalidDates dateParse values).length ++ " invalid date values",
        "Examples: " ++ joinSep ", "
          (((invalidDates dateParse values).take 3).map (fun v => "\"" ++ v ++ "\"")),
        "error"⟩]
  else []

/-- The `errors` bucket of `runValidation`: among the seven checks only
check 4 pushes error-severity findings, one per offending column in
header order. -/
def runValidationErrors (dateParse : String → Bool) (headers : List String)
    (rows : List Row) : List Finding :=
  (headers.map (fun h => dateCheckColumn dateParse h (nonEmptyColumn rows h))).flatten

/-! ## Theorems -/

theorem map_eq_self_of_forall {α : Type} (f : α → α) :
    ∀ (l : List α), (∀ a ∈ l, f a = a) → l.map f = l := by
  intro l h
  induction l with
  | nil => rfl
  | cons a t ih =>
      simp only [List.map_cons]
      rw [h a (by simp), ih (fun b hb => h b (by simp [hb]))]

theorem isAllowed_char_facts {c : Char} (h : isAllowed c = true) :
    (97 ≤ c.toNat ∧ c.toNat ≤ 122) ∨ (48 ≤ c.toNat ∧ c.toNat ≤ 57) ∨ c.toNat = 95 := by
  simp only [isAllowed, Bool.or_eq_true, Bool.and_eq_true, decide_eq_true_eq] at h
  tauto

theorem isWs_eq_false_of_isAllowed {c : Char} (h : isAllowed c = true) :
    isWs c = false := by
  have hf := isAllowed_char_facts h
  have h48 : 48 ≤ c.toNat := by omega
  have hne : ∀ w : Char, w.toNat < 48 → (c == w) = false := by
    intro w hw
    cases hbe : c == w
    · rfl
    · exfalso
      have hcw : c = w := eq_of_beq hbe
      subst hcw
      omega
  simp only [isWs]
  rw [hne ' ' (by decide), hne '\t' (by decide), hne '\n' (by decide),
    hne '\x0d' (by decide), hne '\x0b' (by decide), hne '\x0c' (by decide)]
  rfl

theorem jsToLower_eq_self_of_isAllowed {c : Char} (h : isAllowed c = true) :
    jsToLower c = c := by
  have hf := isAllowed_char_facts h
  unfold jsToLower
  rw [if_neg]
  omega

theorem dropWhile_isWs_eq_self {l : List Char} (h : ∀ c ∈ l, isWs c = false) :
    l.dropWhile isWs = l := by
  cases l with
  | nil => rfl
  | cons a t =>
      rw [List.dropWhile_cons, h a (by simp)]
      simp

theorem trimChars_eq_self {l : List Char} (h : ∀ c ∈ l, isWs c = false) :
    trimChars l = l := by
  unfold trimChars
  rw [dropWhile_isWs_eq_self h, dropWhile_isWs_eq_self (by intro c hc; exact h c (by simpa using hc))]
  simp

theorem mem_prefixUnderscore {l : List Char} {c : Char}
    (h : c ∈ prefixUnderscore l) : c = '_' ∨ c ∈ l := by
  cases l with
  | nil => simp [prefixUnderscore] at h
  | cons a t =>
      simp only [prefixUnderscore] at h
      by_cases hd : isDigitCh a = true
      · rw [if_pos hd] at h
        rcases List.mem_cons.1 h with h | h
        · exact Or.inl h
        · exact Or.inr h
      · rw [if_neg hd] at h
        exact Or.inr h

theorem prefixUnderscore_head_not_digit {l : List Char} {d : Char} {t : List Char}
    (h : prefixUnderscore l = d :: t) : isDigitCh d = false := by
  cases l with
  | nil => simp [prefixUnderscore] at h
  | cons a r =>
      simp only [prefixUnderscore] at h
      by_cases hd : isDigitCh a = true
      · rw [if_pos hd] at h
        cases h
        decide
      · rw [if_neg hd] at h
        cases h
        simpa using hd

theorem take_cons_head {α : Type} {n : Nat} {l : List α} {d : α} {t : List α}
    (h : l.take n = d :: t) : ∃ r, l = d :: r := by
  cases l with
  | nil => simp at h
  | cons a r =>
      cases n with
      | zero => simp at h
      | succ m =>
          rw [List.take_succ_cons] at h
          injection h with h1 h2
          exact ⟨r, by rw [h1]⟩

theorem mem_sanitizeChars_isAllowed {cs : List Char} {c : Char}
    (h : c ∈ sanitizeChars cs) : isAllowed c = true := by
  unfold sanitizeChars at h
  have h1 := List.mem_of_mem_take h
  rcases mem_prefixUnderscore h1 with h2 | h2
  · subst h2; decide
  · rcases List.mem_map.1 h2 with ⟨e, _, he⟩
    by_cases ha : isAllowed e = true
    · rw [← he, if_pos ha]; exact ha
    · rw [← he, if_neg ha]; decide

theorem sanitizeChars_head_not_digit {cs : List Char} {d : Char} {t : List Char}
    (h : sanitizeChars cs = d :: t) : isDigitCh d = false := by
  unfold sanitizeChars at h
  obtain ⟨r, hr⟩ := take_cons_head h
  exact prefixUnderscore_head_not_digit hr

theorem sanitizeChars_length_le (cs : List Char) : (sanitizeChars cs).length ≤ 64 := by
  unfold sanitizeChars
  exact List.length_take_le _ _

theorem prefixUnderscore_eq_self {l : List Char}
    (h : ∀ d t, l = d :: t → isDigitCh d = false) : prefixUnderscore l = l := by
  cases l with
  | nil => rfl
  | cons d t =>
      simp only [prefixUnderscore]
      rw [h d t rfl]
      simp

/-- C7: `sanitize` is idempotent — applying the pipeline (trim, lowercase,
replace every character outside `[a-z0-9_]` with `_`, prefix `_` when the
first character is a digit, truncate to 64 characters) twice gives the
same result as applying it once. -/
theorem C7_sanitize_idempotent (x : String) :
    sanitizeColumnName (sanitizeColumnName x) = sanitizeColumnName x := by
  unfold sanitizeColumnName
  congr 1
  show sanitizeChars (sanitizeChars x.data) = sanitizeChars x.data
  generalize hgen : sanitizeChars x.data = l
  have hall : ∀ c ∈ l, isAllowed c = true := fun c hc =>
    @mem_sanitizeChars_isAllowed x.data c (hgen ▸ hc)
  have hlen : l.length ≤ 64 := hgen ▸ sanitizeChars_length_le x.data
  have hhead : ∀ d t, l = d :: t → isDigitCh d = false := fun d t hdt =>
    sanitizeChars_head_not_digit (hgen.trans hdt)
  unfold sanitizeChars
  rw [trimChars_eq_self (fun c hc => isWs_eq_false_of_isAllowed (hall c hc))]
  rw [map_eq_self_of_forall _ l (fun c hc => jsToLower_eq_self_of_isAllowed (hall c hc))]
  rw [map_eq_self_of_forall _ l (fun c hc => by simp [hall c hc])]
  rw [prefixUnderscore_eq_self hhead]
  exact List.take_of_length_le hlen

theorem isEmpty_false_of_ne_nil {α : Type} {l : List α} (h : l ≠ []) :
    l.isEmpty = false := by
  cases l with
  | nil => exact absurd rfl h
  | cons a t => rfl

theorem all_digits_no_dot {cs : List Char} (h : cs.all isDigitCh = true) :
    cs.any (fun c => c == '.') = false := by
  cases hany : cs.any (fun c => c == '.') with
  | false => rfl
  | true =>
      exfalso
      obtain ⟨c, hc, hcd⟩ := List.any_eq_true.1 hany
      have hdig := List.all_eq_true.1 h c hc
      have hce : c = '.' := eq_of_beq hcd
      subst hce
      revert hdig
      decide

theorem matchSignedInt_imp_dec {s : String} (h : matchSignedInt s = true) :
    matchSignedDec s = true := by
  unfold matchSignedInt at h
  unfold matchSignedDec
  simp only [Bool.and_eq_true] at h
  rw [all_digits_no_dot h.2, if_neg Bool.false_ne_true]
  simp only [Bool.and_eq_true]
  exact h

/-- C1: for every value sequence whose non-empty entries all match the
signed-integer pattern (with at least one non-empty entry), `detect`
returns `INTEGER`; every integer string also matches the decimal
predicate, and on such ties the precedence INTEGER > DECIMAL > DATE >
VARCHAR decides the result: all-decimal columns that are not all-integer
get `DECIMAL(10,2)`, all-date columns that are neither get `DATE`. -/
theorem C1_detect_integer_precedence (dateParse : String → Bool)
    (values : List (Option String)) (hne : validValues values ≠ []) :
    ((∀ v ∈ validValues values, matchSignedInt (jsTrim v) = true) →
      detectDataType dateParse values = "INTEGER") ∧
    (∀ s : String, matchSignedInt s = true → matchSignedDec s = true) ∧
    (¬ (∀ v ∈ validValues values, matchSignedInt (jsTrim v) = true) →
      (∀ v ∈ validValues values, matchSignedDec (jsTrim v) = true) →
      detectDataType dateParse values = "DECIMAL(10,2)") ∧
    (¬ (∀ v ∈ validValues values, matchSignedInt (jsTrim v) = true) →
      ¬ (∀ v ∈ validValues values, matchSignedDec (jsTrim v) = true) →
      (∀ v ∈ validValues values, dateParse (jsTrim v) = true) →
      detectDataType dateParse values = "DATE") := by
  have hni : ¬ ((validValues values).isEmpty = true) := by
    rw [isEmpty_false_of_ne_nil hne]; exact Bool.false_ne_true
  refine ⟨?_, fun s => matchSignedInt_imp_dec, ?_, ?_⟩
  · intro hall
    unfold detectDataType
    rw [if_neg hni, if_pos (List.all_eq_true.2 hall)]
  · intro hnotint halldec
    unfold detectDataType
    rw [if_neg hni, if_neg (fun h => hnotint (List.all_eq_true.1 h)),
      if_pos (List.all_eq_true.2 halldec)]
  · intro hnotint hnotdec halldate
    unfold detectDataType
    rw [if_neg hni, if_neg (fun h => hnotint (List.all_eq_true.1 h)),
      if_neg (fun h => hnotdec (List.all_eq_true.1 h)),
      if_pos (List.all_eq_true.2 halldate)]

theorem C1_witness :
    validValues [some "42", some "-7", none, some ""] ≠ [] ∧
    detectDataType (fun _ => false) [some "42", some "-7", none, some ""] = "INTEGER" := by
  refine ⟨by decide, ?_⟩
  exact (C1_detect_integer_precedence (fun _ => false)
    [some "42", some "-7", none, some ""] (by decide)).1 (by decide)

theorem ceil_three_halves (L : Nat) :
    Int.ceil ((L : ℚ) * 3 / 2) = ((3 * L + 1) / 2 : ℕ) := by
  obtain ⟨n, hn⟩ : ∃ n, (3 * L + 1) / 2 = n := ⟨_, rfl⟩
  have h1 : 2 * n ≤ 3 * L + 1 := by omega
  have h2 : 3 * L ≤ 2 * n := by omega
  rw [hn, Int.ceil_eq_iff]
  constructor
  · have hq : ((2 * n : ℕ) : ℚ) ≤ ((3 * L + 1 : ℕ) : ℚ) := by exact_mod_cast h1
    push_cast at hq
    rw [lt_div_iff (by norm_num : (0:ℚ) < 2)]
    push_cast
    linarith
  · have hq : ((3 * L : ℕ) : ℚ) ≤ ((2 * n : ℕ) : ℚ) := by exact_mod_cast h2
    push_cast at hq
    rw [div_le_iff (by norm_num : (0:ℚ) < 2)]
    push_cast
    linarith

/-- The clamped-and-ceiled VARCHAR width agrees with the closed natural
number formula `min (max ((3L+1)/2) 50) 255`. -/
theorem varcharWidth_eq (L : Nat) :
    varcharWidth L = ((min (max ((3 * L + 1) / 2) 50) 255 : ℕ) : ℤ) := by
  unfold varcharWidth
  rcases le_or_lt (3 * L) 99 with hc | hc
  · have hq : (L : ℚ) * 3 / 2 ≤ 50 := by
      rw [div_le_iff (by norm_num : (0:ℚ) < 2)]
      have : ((3 * L : ℕ) : ℚ) ≤ 99 := by exact_mod_cast hc
      push_cast at this
      linarith
    rw [max_eq_right hq, min_eq_left (by norm_num : (50:ℚ) ≤ 255)]
    have hr : min (max ((3 * L + 1) / 2) 50) 255 = 50 := by omega
    rw [hr]
    norm_num
  · rcases le_or_lt 511 (3 * L) with hc2 | hc2
    · have hq : (255 : ℚ) ≤ (L : ℚ) * 3 / 2 := by
        rw [le_div_iff (by norm_num : (0:ℚ) < 2)]
        have : (511 : ℚ) ≤ ((3 * L : ℕ) : ℚ) := by exact_mod_cast hc2
        push_cast at this
        linarith
      rw [min_eq_right (le_trans hq (le_max_left _ _))]
      have hr : min (max ((3 * L + 1) / 2) 50) 255 = 255 := by omega
      rw [hr]
      norm_num
    · have hq1 : (50 : ℚ) ≤ (L : ℚ) * 3 / 2 := by
        rw [le_div_iff (by norm_num : (0:ℚ) < 2)]
        have : (100 : ℚ) ≤ ((3 * L : ℕ) : ℚ) := by exact_mod_cast hc
        push_cast at this
        linarith
      have hq2 : (L : ℚ) * 3 / 2 ≤ 255 := by
        rw [div_le_iff (by norm_num : (0:ℚ) < 2)]
        have : ((3 * L : ℕ) : ℚ) ≤ 510 := by exact_mod_cast (by omega : 3 * L ≤ 510)
        push_cast at this
        linarith
      rw [max_eq_left hq1, min_eq_left hq2]
      have hr : min (max ((3 * L + 1) / 2) 50) 255 = (3 * L + 1) / 2 := by omega
      rw [hr]
      exact ceil_three_halves L

theorem foldl_max_bounds {α : Type} (f : α → Nat) :
    ∀ (l : List α) (a : Nat),
      a ≤ l.foldl (fun m v => max m (f v)) a ∧
      ∀ v ∈ l, f v ≤ l.foldl (fun m v => max m (f v)) a := by
  intro l
  induction l with
  | nil => intro a; exact ⟨le_refl _, by simp⟩
  | cons x t ih =>
      intro a
      simp only [List.foldl_cons]
      obtain ⟨h1, h2⟩ := ih (max a (f x))
      refine ⟨le_trans (le_max_left _ _) h1, ?_⟩
      intro v hv
      rcases List.mem_cons.1 hv with hv | hv
      · subst hv; exact le_trans (le_max_right _ _) h1
      · exact h2 v hv

theorem foldl_max_attained {α : Type} (f : α → Nat) :
    ∀ (l : List α) (a : Nat),
      l.foldl (fun m v => max m (f v)) a = a ∨
      ∃ v ∈ l, l.foldl (fun m v => max m (f v)) a = f v := by
  intro l
  induction l with
  | nil => intro a; exact Or.inl rfl
  | cons x t ih =>
      intro a
      simp only [List.foldl_cons]
      rcases ih (max a (f x)) with h | ⟨v, hv, hfv⟩
      · rcases le_total (f x) a with hle | hle
        · left; rw [h, max_eq_left hle]
        · right; exact ⟨x, by simp, by rw [h, max_eq_right hle]⟩
      · right; exact ⟨v, by simp [hv], hfv⟩

/-- C6: `detect` on a sequence with zero non-empty values returns
`VARCHAR(255)`; when none of the three type predicates holds for all
sampled values it returns `VARCHAR(w)` with
`w = ceil(clamp(maxLength * 1.5, 50, 255))`, where `maxLength` — here
characterised as an attained upper bound — is the longest trimmed value
length in the sample. -/
theorem C6_detect_varchar_fallback (dateParse : String → Bool)
    (values : List (Option String)) :
    (validValues values = [] → detectDataType dateParse values = "VARCHAR(255)") ∧
    (∀ v ∈ validValues values,
      (jsTrim v).length ≤ maxTrimmedLength (validValues values)) ∧
    (validValues values ≠ [] → ∃ v ∈ validValues values,
      (jsTrim v).length = maxTrimmedLength (validValues values)) ∧
    (validValues values ≠ [] →
      ¬ (∀ v ∈ validValues values, matchSignedInt (jsTrim v) = true) →
      ¬ (∀ v ∈ validValues values, matchSignedDec (jsTrim v) = true) →
      ¬ (∀ v ∈ validValues values, dateParse (jsTrim v) = true) →
      detectDataType dateParse values =
        "VARCHAR(" ++
          toString (Int.ceil (min (max
            ((maxTrimmedLength (validValues values) : ℚ) * 3 / 2) 50) 255)) ++ ")") := by
  refine ⟨?_, ?_, ?_, ?_⟩
  · intro h
    unfold detectDataType
    rw [if_pos (by rw [h]; rfl)]
  · exact (foldl_max_bounds (fun v => (jsTrim v).length) (validValues values) 0).2
  · intro hne
    rcases foldl_max_attained (fun v => (jsTrim v).length) (validValues values) 0 with h | h
    · obtain ⟨v, hv⟩ := List.exists_mem_of_ne_nil _ hne
      refine ⟨v, hv, ?_⟩
      have hb := (foldl_max_bounds (fun v => (jsTrim v).length)
        (validValues values) 0).2 v hv
      unfold maxTrimmedLength
      omega
    · obtain ⟨v, hv, hfv⟩ := h
      exact ⟨v, hv, hfv.symm⟩
  · intro hne hnint hndec hndate
    have hni : ¬ ((validValues values).isEmpty = true) := by
      rw [isEmpty_false_of_ne_nil hne]; exact Bool.false_ne_true
    unfold detectDataType
    rw [if_neg hni, if_neg (fun h => hnint (List.all_eq_true.1 h)),
      if_neg (fun h => hndec (List.all_eq_true.1 h)),
      if_neg (fun h => hndate (List.all_eq_true.1 h))]
    rfl

theorem C6_witness :
    detectDataType (fun _ => false) [none, some ""] = "VARCHAR(255)" ∧
    validValues [some "hello world!!", none] ≠ [] ∧
    detectDataType (fun _ => false) [some "hello world!!", none] = "VARCHAR(50)" := by
  refine ⟨?_, by decide, ?_⟩
  · exact (C6_detect_varchar_fallback (fun _ => false) [none, some ""]).1 (by decide)
  · have h := (C6_detect_varchar_fallback (fun _ => false)
      [some "hello world!!", none]).2.2.2 (by decide) (by decide) (by decide) (by decide)
    rw [h]
    have hm : maxTrimmedLength (validValues [some "hello world!!", none]) = 13 := by decide
    rw [hm]
    have h50 := varcharWidth_eq 13
    unfold varcharWidth at h50
    rw [h50]
    decide

theorem takeWhile_all_append {p : Char → Bool} :
    ∀ (l1 l2 : List Char), l1.all p = true → l2.takeWhile p = [] →
      (l1 ++ l2).takeWhile p = l1 := by
  intro l1
  induction l1 with
  | nil => intro l2 _ h2; simpa using h2
  | cons a t ih =>
      intro l2 h1 h2
      simp only [Bool.and_eq_true, List.all_cons] at h1
      simp only [List.cons_append, List.takeWhile_cons, h1.1, ih l2 h1.2 h2]
      simp

theorem dropWhile_all_append {p : Char → Bool} :
    ∀ (l1 l2 : List Char), l1.all p = true →
      (l1 ++ l2).dropWhile p = l2.dropWhile p := by
  intro l1
  induction l1 with
  | nil => intro l2 _; rfl
  | cons a t ih =>
      intro l2 h1
      simp only [Bool.and_eq_true, List.all_cons] at h1
      simp only [List.cons_append, List.dropWhile_cons, h1.1, ih l2 h1.2]
      simp

theorem extractParenDigits_varchar {s : String} (hne : s.data ≠ [])
    (hdig : s.data.all isDigitCh = true) :
    extractParenDigits (("VARCHAR(" ++ s ++ ")").data) = some s.data := by
  have hdata : ("VARCHAR(" ++ s ++ ")").data
      = ['V', 'A', 'R', 'C', 'H', 'A', 'R', '('] ++ (s.data ++ [')']) := by
    rw [String.data_append, String.data_append, List.append_assoc]
  rw [hdata]
  have htw : (s.data ++ [')']).takeWhile isDigitCh = s.data :=
    takeWhile_all_append s.data [')'] hdig (by decide)
  have hdw : (s.data ++ [')']).dropWhile isDigitCh = [')'] := by
    rw [dropWhile_all_append s.data [')'] hdig]
    decide
  simp only [List.cons_append, List.nil_append]
  simp only [extractParenDigits]
  simp [htw, hdw, isEmpty_false_of_ne_nil hne]

theorem mk_data (s : String) : String.mk s.data = s := rfl

theorem data_ne_nil_of_ne_empty {s : String} (h : s ≠ "") : s.data ≠ [] := by
  intro hd
  exact h (by rw [← mk_data s, hd])

theorem varcharSize_of_width {s : String} (hne : s ≠ "")
    (hdig : s.data.all isDigitCh = true) :
    varcharSize ("VARCHAR(" ++ s ++ ")") = s := by
  unfold varcharSize
  rw [extractParenDigits_varchar (data_ne_nil_of_ne_empty hne) hdig]

theorem jsStartsWith_varchar_width (s : String) :
    jsStartsWith ("VARCHAR(" ++ s ++ ")") "VARCHAR" = true := by
  unfold jsStartsWith
  rw [String.data_append, String.data_append, List.append_assoc]
  have h7 : "VARCHAR".data = ['V', 'A', 'R', 'C', 'H', 'A', 'R'] := rfl
  have h8 : "VARCHAR(".data = ['V', 'A', 'R', 'C', 'H', 'A', 'R', '('] := rfl
  rw [h7, h8]
  simp [List.isPrefixOf, List.cons_append]

theorem convertToDialect_varchar (s d : String) (hne : s ≠ "")
    (hdig : s.data.all isDigitCh = true) :
    convertToDialect ("VARCHAR(" ++ s ++ ")") d =
      if d = "oracle" then "VARCHAR2(" ++ s ++ ")"
      else if d = "sqlite" then "TEXT"
      else "VARCHAR(" ++ s ++ ")" := by
  unfold convertToDialect
  rw [if_pos (jsStartsWith_varchar_width s), varcharSize_of_width hne hdig]
  by_cases ho : d = "oracle"
  · simp [ho]
  · by_cases hs : d = "sqlite"
    · simp [ho, hs]
    · simp [ho, hs]

theorem convertToDialect_varchar_nowidth (d : String) :
    convertToDialect "VARCHAR" d =
      if d = "oracle" then "VARCHAR2(255)"
      else if d = "sqlite" then "TEXT"
      else "VARCHAR(255)" := by
  unfold convertToDialect
  rw [if_pos (by decide : jsStartsWith "VARCHAR" "VARCHAR" = true),
    (by decide : varcharSize "VARCHAR" = "255")]
  by_cases ho : d = "oracle"
  · simp [ho]
  · by_cases hs : d = "sqlite"
    · simp [ho, hs]
    · simp [ho, hs]

/-- C5: the dialect mapper sends `INTEGER` to sqlite `INTEGER`,
`DECIMAL(10,2)` to sqlite `REAL`, and `VARCHAR(50)` to oracle
`VARCHAR2(50)`; in general every `VARCHAR(n)` maps to `VARCHAR2(n)` for
oracle, `TEXT` for sqlite (width discarded), `VARCHAR(n)` for every
other dialect, and a missing width defaults to 255. -/
theorem C5_dialect_mapping :
    convertToDialect "INTEGER" "sqlite" = "INTEGER" ∧
    convertToDialect "DECIMAL(10,2)" "sqlite" = "REAL" ∧
    convertToDialect "VARCHAR(50)" "oracle" = "VARCHAR2(50)" ∧
    (∀ s d : String, s ≠ "" → s.data.all isDigitCh = true →
      convertToDialect ("VARCHAR(" ++ s ++ ")") d =
        if d = "oracle" then "VARCHAR2(" ++ s ++ ")"
        else if d = "sqlite" then "TEXT"
        else "VARCHAR(" ++ s ++ ")") ∧
    (∀ d : String, convertToDialect "VARCHAR" d =
        if d = "oracle" then "VARCHAR2(255)"
        else if d = "sqlite" then "TEXT"
        else "VARCHAR(255)") :=
  ⟨by decide, by decide, by decide, convertToDialect_varchar, convertToDialect_varchar_nowidth⟩

theorem C5_witness :
    ("7" : String) ≠ "" ∧ ("7" : String).data.all isDigitCh = true ∧
    convertToDialect ("VARCHAR(" ++ "7" ++ ")") "mysql" = "VARCHAR(7)" := by
  refine ⟨by decide, by decide, ?_⟩
  rw [C5_dialect_mapping.2.2.2.1 "7" "mysql" (by decide) (by decide)]
  decide

theorem doubleQuotes_length_ge : ∀ (l : List Char), l.length ≤ (doubleQuotes l).length := by
  intro l
  induction l with
  | nil => exact le_refl _
  | cons c r ih =>
      simp only [doubleQuotes]
      by_cases hc : (c == squote) = true
      · rw [if_pos hc]; simp; omega
      · rw [if_neg hc]; simp; omega

/-- C2 counterexample: `INT` is a reachable resolved dialect type
(`convertToDialect "INTEGER" "mysql"`), none of the four family names
integer/decimal/numeric/real is a prefix of it, yet `escapeSQLValue`
emits the value unquoted rather than quoted. -/
theorem C2_counterexample :
    convertToDialect "INTEGER" "mysql" = "INT" ∧
    isNumericFamilySpec "INT" = false ∧
    escapeSQLValue (some "5") "INT" = "5" ∧
    escapeSQLValue (some "5") "INT" ≠ "\x275\x27" := by
  refine ⟨by decide, by decide, by decide, by decide⟩

/-- C2 (amended): for every non-NULL-equivalent raw value, escape emits
the trimmed raw string unquoted exactly when the resolved dialect type
is `INTEGER`, `INT`, `NUMBER` or `REAL` exactly or starts with `DECIMAL`
or `NUMERIC`; for every other resolved type it emits the trimmed value
wrapped in single quotes with every embedded single quote doubled. -/
theorem C2_escape_numeric_family (v t : String) (hne : v ≠ "") :
    (escapeSQLValue (some v) t = jsTrim v ↔ isNumericDialectType t = true) ∧
    (isNumericDialectType t = false →
      escapeSQLValue (some v) t = squoteStr ++ escapeQuotes (jsTrim v) ++ squoteStr) := by
  have hbe : (v == "") = false := by
    cases hb : v == ""
    · rfl
    · exact absurd (eq_of_beq hb) hne
  by_cases hn : isNumericDialectType t = true
  · constructor
    · simp only [escapeSQLValue, hbe, Bool.false_eq_true, if_false, hn, if_true]
    · intro hf; rw [hn] at hf; exact absurd hf (by decide)
  · have hnf : isNumericDialectType t = false := by
      cases hx : isNumericDialectType t
      · rfl
      · exact absurd hx hn
    constructor
    · simp only [escapeSQLValue, hbe, Bool.false_eq_true, if_false, hnf, if_true]
      constructor
      · intro heq
        exfalso
        have hlen := congrArg (fun x => x.data.length) heq
        simp only [String.data_append] at hlen
        have hq := doubleQuotes_length_ge (jsTrim v).data
        simp only [List.length_append] at hlen
        have h1 : (squoteStr.data).length = 1 := by decide
        have h2 : (escapeQuotes (jsTrim v)).data = doubleQuotes (jsTrim v).data := rfl
        rw [h2] at hlen
        omega
      · intro hx; exact absurd hx (by simp)
    · intro _
      simp only [escapeSQLValue, hbe, Bool.false_eq_true, if_false, hnf, if_true]

theorem C2_witness :
    ("O\x27Brien" : String) ≠ "" ∧ isNumericDialectType "VARCHAR(50)" = false ∧
    escapeSQLValue (some "O\x27Brien") "VARCHAR(50)" = "\x27O\x27\x27Brien\x27" := by
  refine ⟨by decide, by decide, ?_⟩
  rw [(C2_escape_numeric_family "O\x27Brien" "VARCHAR(50)" (by decide)).2 (by decide)]
  decide

theorem dropWhile_eq_nil_of_all {p : Char → Bool} :
    ∀ (l : List Char), l.all p = true → l.dropWhile p = [] := by
  intro l
  induction l with
  | nil => intro _; rfl
  | cons a t ih =>
      intro h
      simp only [List.all_cons, Bool.and_eq_true] at h
      simp only [List.dropWhile_cons, h.1, if_true]
      exact ih h.2

theorem jsTrim_of_all_ws {v : String} (h : v.data.all isWs = true) : jsTrim v = "" := by
  unfold jsTrim trimChars
  rw [dropWhile_eq_nil_of_all v.data h]
  rfl

/-- C9: a raw value made only of whitespace is not NULL-equivalent:
escape under a non-numeric resolved type returns the quoted empty
literal `''` rather than `NULL`, and the detector's filter keeps the
value, which contributes trimmed length 0 to `maxLength`; only `null`,
absence, and the exact empty string are NULL-equivalent. -/
theorem C9_whitespace_not_null (v t : String) (hne : v ≠ "")
    (hws : v.data.all isWs = true) (hnum : isNumericDialectType t = false) :
    isNullEquiv (some v) = false ∧
    escapeSQLValue (some v) t = squoteStr ++ squoteStr ∧
    validValues [some v] = [v] ∧
    (jsTrim v).length = 0 ∧
    maxTrimmedLength (validValues [some v]) = 0 ∧
    isNullEquiv none = true ∧ isNullEquiv (some "") = true ∧
    (∀ w : String, w ≠ "" → isNullEquiv (some w) = false) := by
  have hbe : (v == "") = false := by
    cases hb : v == ""
    · rfl
    · exact absurd (eq_of_beq hb) hne
  have htrim : jsTrim v = "" := jsTrim_of_all_ws hws
  refine ⟨?_, ?_, ?_, ?_, ?_, rfl, rfl, ?_⟩
  · simp only [isNullEquiv, hbe]
  · simp only [escapeSQLValue, hbe, Bool.false_eq_true, if_false, hnum, htrim]
    rfl
  · simp only [validValues, List.filterMap, hbe]
    rfl
  · rw [htrim]; rfl
  · simp only [validValues, List.filterMap, hbe, Bool.false_eq_true, if_false]
    simp only [maxTrimmedLength, List.foldl, htrim]
    rfl
  · intro w hw
    have : (w == "") = false := by
      cases hb : w == ""
      · rfl
      · exact absurd (eq_of_beq hb) hw
    simp only [isNullEquiv, this]

theorem C9_witness :
    (" " : String) ≠ "" ∧ (" " : String).data.all isWs = true ∧
    isNumericDialectType "TEXT" = false ∧
    escapeSQLValue (some " ") "TEXT" = "\x27\x27" := by
  refine ⟨by decide, by decide, by decide, ?_⟩
  rw [(C9_whitespace_not_null " " "TEXT" (by decide) (by decide) (by decide)).2.1]
  decide

theorem chunksOf_nil {α : Type} (n : Nat) : chunksOf n ([] : List α) = [] := by
  rw [chunksOf]

theorem chunksOf_cons {α : Type} (n : Nat) (l : List α) (hn : n ≠ 0) (hl : l ≠ []) :
    chunksOf n l = l.take n :: chunksOf n (l.drop n) := by
  cases l with
  | nil => exact absurd rfl hl
  | cons x xs =>
      rw [chunksOf, dif_neg hn]

theorem chunksOf_get {α : Type} (n : Nat) (hn : n ≠ 0) :
    ∀ (i : Nat) (l : List α), i < (chunksOf n l).length →
      (chunksOf n l).get? i = some ((l.drop (n * i)).take n) := by
  intro i
  induction i with
  | zero =>
      intro l hi
      by_cases hl : l = []
      · rw [hl, chunksOf_nil] at hi; simp at hi
      · rw [chunksOf_cons n l hn hl]
        simp
  | succ k ih =>
      intro l hi
      by_cases hl : l = []
      · rw [hl, chunksOf_nil] at hi; simp at hi
      · rw [chunksOf_cons n l hn hl] at hi ⊢
        rw [List.get?_cons_succ]
        rw [ih (l.drop n) (by simpa using hi), List.drop_drop]
        have harith : n + n * k = n * (k + 1) := by ring
        rw [harith]

theorem chunksOf_250 {α : Type} (rows : List α) (h : rows.length = 250) :
    chunksOf 100 rows = [rows.take 100, (rows.drop 100).take 100, rows.drop 200] := by
  have h1 : rows ≠ [] := by
    intro h0; rw [h0] at h; simp at h
  have hd100 : (rows.drop 100).length = 150 := by rw [List.length_drop, h]
  have hd200 : (rows.drop 200).length = 50 := by rw [List.length_drop, h]
  have h2 : rows.drop 100 ≠ [] := by
    intro h0; rw [h0] at hd100; simp at hd100
  have h3 : rows.drop 200 ≠ [] := by
    intro h0; rw [h0] at hd200; simp at hd200
  rw [chunksOf_cons 100 rows (by norm_num) h1]
  rw [chunksOf_cons 100 _ (by norm_num) h2]
  rw [List.drop_drop]
  norm_num
  rw [chunksOf_cons 100 _ (by norm_num) h3]
  rw [List.drop_drop]
  norm_num
  have hnil : rows.drop 300 = [] := by
    apply List.drop_eq_nil_of_le
    omega
  rw [hnil, chunksOf_nil]
  exact ⟨by omega, rfl⟩

/-- C8: on a 250-row table with batch size 100 the renderer produces
exactly 3 INSERT statements over the consecutive slices of sizes 100,
100 and 50, each statement built from one value-tuple per row of its
batch and terminated by `;` plus a blank line; in general the i-th batch
is the i-th consecutive slice of the rows in order. -/
theorem C8_batch_rendering (tableName : String) (headers : List String)
    (columnTypes : String → String) (rows : List Row) (h : rows.length = 250) :
    insertStatements tableName headers columnTypes rows =
      [insertStatement (sanitizeColumnName tableName) headers columnTypes (rows.take 100),
       insertStatement (sanitizeColumnName tableName) headers columnTypes
         ((rows.drop 100).take 100),
       insertStatement (sanitizeColumnName tableName) headers columnTypes (rows.drop 200)] ∧
    (rows.take 100).length = 100 ∧
    ((rows.drop 100).take 100).length = 100 ∧
    (rows.drop 200).length = 50 ∧
    (∀ batch : List Row, (batch.map (rowTuple headers columnTypes)).length = batch.length) ∧
    (∀ (name : String) (batch : List Row), ∃ body : String,
      insertStatement name headers columnTypes batch = body ++ ";\n\n") ∧
    (∀ (n : Nat) (l : List Row) (i : Nat), n ≠ 0 → i < (chunksOf n l).length →
      (chunksOf n l).get? i = some ((l.drop (n * i)).take n)) := by
  refine ⟨?_, ?_, ?_, ?_, ?_, ?_, ?_⟩
  · unfold insertStatements batchSize
    rw [chunksOf_250 rows h]
    rfl
  · rw [List.length_take, h]; omega
  · rw [List.length_take, List.length_drop, h]; omega
  · rw [List.length_drop, h]
  · intro batch; exact List.length_map _ _
  · intro name batch
    exact ⟨"INSERT INTO " ++ name ++ " (" ++
      joinSep ", " (headers.map sanitizeColumnName) ++ ") VALUES\n" ++
      joinSep ",\n" (batch.map (rowTuple headers columnTypes)), rfl⟩
  · intro n l i hn hi
    exact chunksOf_get n hn i l hi

theorem C8_witness :
    (List.replicate 250 ((fun _ => none) : Row)).length = 250 ∧
    (insertStatements "t" ["a"] (fun _ => "TEXT")
      (List.replicate 250 ((fun _ => none) : Row))).length = 3 := by
  refine ⟨List.length_replicate 250 _, ?_⟩
  rw [(C8_batch_rendering "t" ["a"] (fun _ => "TEXT")
    (List.replicate 250 ((fun _ => none) : Row)) (List.length_replicate 250 _)).1]
  rfl

theorem dialectMap_none {g : String} (d : String)
    (h1 : g ≠ "INTEGER") (h2 : g ≠ "DECIMAL(10,2)") (h3 : g ≠ "DATE")
    (h4 : g ≠ "VARCHAR") : dialectMap d g = none := by
  unfold dialectMap postgresqlMap mysqlMap sqlserverMap sqliteMap oracleMap
  split_ifs <;> simp_all

theorem convertToDialect_passthrough {g : String} (d : String)
    (hsw : jsStartsWith g "VARCHAR" = false)
    (h1 : g ≠ "INTEGER") (h2 : g ≠ "DECIMAL(10,2)") (h3 : g ≠ "DATE")
    (h4 : g ≠ "VARCHAR") : convertToDialect g d = g := by
  unfold convertToDialect
  rw [if_neg (by simp [hsw]), dialectMap_none d h1 h2 h3 h4]
  rfl

theorem infix_joinSep (sep : String) :
    ∀ (l : List String) (x : String), x ∈ l → x.data <:+: (joinSep sep l).data := by
  intro l
  induction l with
  | nil => intro x hx; simp at hx
  | cons a t ih =>
      intro x hx
      cases t with
      | nil =>
          rcases List.mem_cons.1 hx with h | h
          · subst h; exact List.infix_rfl
          · simp at h
      | cons b t2 =>
          have hj : joinSep sep (a :: b :: t2) = a ++ sep ++ joinSep sep (b :: t2) := rfl
          rw [hj, String.data_append, String.data_append]
          rcases List.mem_cons.1 hx with h | h
          · subst h
            exact ((List.prefix_append x.data sep.data).trans
              (List.prefix_append (x.data ++ sep.data) (joinSep sep (b :: t2)).data)).isInfix
          · exact (ih x h).trans
              (List.suffix_append (a.data ++ sep.data) (joinSep sep (b :: t2)).data).isInfix

theorem infix_pre_post {x m : List Char} (pre post : List Char) (h : x <:+: m) :
    x <:+: (pre ++ m) ++ post :=
  ((h.trans (List.suffix_append pre m).isInfix).trans
    (List.prefix_append (pre ++ m) post).isInfix)

/-- C10: a generic-type string that does not start with `VARCHAR` and is
not one of the four exact lookup keys is returned by `toDialect`
verbatim, so an unvalidated override value reaches the rendered
CREATE TABLE column definition unmodified. -/
theorem C10_override_passthrough (g d : String)
    (hsw : jsStartsWith g "VARCHAR" = false)
    (h1 : g ≠ "INTEGER") (h2 : g ≠ "DECIMAL(10,2)") (h3 : g ≠ "DATE")
    (h4 : g ≠ "VARCHAR") (hge : g ≠ "")
    (dateParse : String → Bool) (overrides : String → Option String)
    (rows : List Row) (headers : List String) (hcol : String)
    (hmem : hcol ∈ headers)
    (hov : overrides (sanitizeColumnName hcol) = some g) (tableName : String) :
    convertToDialect g d = g ∧
    resolveColumnType dateParse overrides d rows hcol = g ∧
    ("  " ++ sanitizeColumnName hcol ++ " " ++ g) ∈
      columnDefinitions headers (resolveColumnType dateParse overrides d rows) ∧
    ("  " ++ sanitizeColumnName hcol ++ " " ++ g).data <:+:
      (createTableSQL tableName headers
        (resolveColumnType dateParse overrides d rows) d).data := by
  have hconv : convertToDialect g d = g := convertToDialect_passthrough d hsw h1 h2 h3 h4
  have hres : resolveColumnType dateParse overrides d rows hcol = g := by
    unfold resolveColumnType
    rw [hov]
    simp only [hge, hconv]
    rw [if_neg (by simp [hge])]
  have hmemdef : ("  " ++ sanitizeColumnName hcol ++ " " ++ g) ∈
      columnDefinitions headers (resolveColumnType dateParse overrides d rows) := by
    unfold columnDefinitions
    exact List.mem_map.2 ⟨hcol, hmem, by rw [hres]⟩
  refine ⟨hconv, hres, hmemdef, ?_⟩
  have hinf := infix_joinSep ",\n" _ _ hmemdef
  unfold createTableSQL
  rw [String.data_append, String.data_append]
  exact infix_pre_post _ _ hinf

theorem C10_witness :
    jsStartsWith "DROP TABLE x" "VARCHAR" = false ∧
    ("DROP TABLE x" : String) ≠ "INTEGER" ∧
    ("DROP TABLE x" : String) ≠ "VARCHAR" ∧
    resolveColumnType (fun _ => false)
      (fun n => if n == "c" then some "DROP TABLE x" else none)
      "postgresql" [] "c" = "DROP TABLE x" := by
  refine ⟨by decide, by decide, by decide, ?_⟩
  exact (C10_override_passthrough "DROP TABLE x" "postgresql" (by decide) (by decide)
    (by decide) (by decide) (by decide) (by decide) (fun _ => false)
    (fun n => if n == "c" then some "DROP TABLE x" else none) [] ["c"] "c"
    (by decide) (by decide) "t").2.1

theorem nullPercent10_eq (nc total : Nat) (ht : 0 < total) :
    nullPercent10 nc total = ((2000 * nc + total) / (2 * total) : ℕ) := by
  obtain ⟨m, hm⟩ : ∃ m, (2000 * nc + total) / (2 * total) = m := ⟨_, rfl⟩
  have f1 : 2 * total * m ≤ 2000 * nc + total := by
    rw [← hm, Nat.mul_comm]
    exact Nat.div_mul_le_self _ _
  have hdm := Nat.div_add_mod (2000 * nc + total) (2 * total)
  have hmod : (2000 * nc + total) % (2 * total) < 2 * total :=
    Nat.mod_lt _ (by omega)
  have f2 : 2000 * nc + total < 2 * total * (m + 1) := by
    rw [← hm]
    calc 2000 * nc + total
        = 2 * total * ((2000 * nc + total) / (2 * total)) +
            (2000 * nc + total) % (2 * total) := hdm.symm
      _ < 2 * total * ((2000 * nc + total) / (2 * total)) + 2 * total := by omega
      _ = 2 * total * ((2000 * nc + total) / (2 * total) + 1) := by ring
  have ht' : (0 : ℚ) < total := by exact_mod_cast ht
  have hcomb : (1000 * nc : ℚ) / total + 1 / 2 = (2000 * nc + total) / (2 * total) := by
    field_simp
    ring
  rw [hm]
  unfold nullPercent10
  rw [hcomb, Int.floor_eq_iff]
  constructor
  · rw [le_div_iff (by positivity)]
    have hq : ((2 * total * m : ℕ) : ℚ) ≤ ((2000 * nc + total : ℕ) : ℚ) := by exact_mod_cast f1
    push_cast at hq ⊢
    linarith
  · rw [div_lt_iff (by positivity)]
    have hq : ((2000 * nc + total : ℕ) : ℚ) < ((2 * total * (m + 1) : ℕ) : ℚ) := by
      exact_mod_cast f2
    push_cast at hq ⊢
    linarith

theorem nullPercent10_gt_iff (nc total : Nat) (ht : 0 < total) :
    nullPercent10 nc total > 500 ↔ 1001 * total ≤ 2000 * nc := by
  have ht' : (0 : ℚ) < total := by exact_mod_cast ht
  unfold nullPercent10
  rw [gt_iff_lt, Int.lt_iff_add_one_le, Int.le_floor]
  have hcomb : (1000 * nc : ℚ) / total + 1 / 2 = (2000 * nc + total) / (2 * total) := by
    field_simp
    ring
  rw [hcomb]
  rw [le_div_iff (by positivity)]
  constructor
  · intro hq
    have h2 : (1001 * total : ℚ) ≤ (2000 * nc : ℚ) := by push_cast at hq ⊢; linarith
    exact_mod_cast h2
  · intro hn
    have h2 : (1001 * (total : ℚ)) ≤ 2000 * (nc : ℚ) := by exact_mod_cast hn
    push_cast
    linarith

/-- C3 counterexample: a column of 501 NULLs among 1001 rows has NULL
ratio 501/1001 > 50%, yet the finding's severity is `info`, because the
code compares the percentage only after rounding it to one decimal
(50.05% would be needed for a warning). -/
theorem C3_counterexample :
    ((nullCount (List.replicate 501 (none : Option String) ++
        List.replicate 500 (some "x")) : ℚ) /
      (List.replicate 501 (none : Option String) ++
        List.replicate 500 (some "x")).length > 1 / 2) ∧
    (nullCheckColumn "c" (List.replicate 501 (none : Option String) ++
        List.replicate 500 (some "x"))).map Finding.severity = ["info"] := by
  have hnc : nullCount (List.replicate 501 (none : Option String) ++
      List.replicate 500 (some "x")) = 501 := by
    unfold nullCount
    rw [List.filter_append]
    rw [List.filter_replicate]
    rw [List.filter_replicate]
    rw [show isNullEquiv (none : Option String) = true from rfl]
    rw [show isNullEquiv (some "x") = false from rfl]
    rw [if_pos rfl, if_neg (by decide)]
    rw [List.append_nil, List.length_replicate]
  have hlen : (List.replicate 501 (none : Option String) ++
      List.replicate 500 (some "x")).length = 1001 := by
    rw [List.length_append, List.length_replicate, List.length_replicate]
  constructor
  · rw [hnc, hlen]
    norm_num
  · unfold nullCheckColumn
    rw [hnc, hlen]
    rw [if_pos (by norm_num)]
    rw [if_neg (by rw [nullPercent10_eq 501 1001 (by norm_num)]; norm_num)]
    rfl

/-- C3 (amended): for every column, a NULL finding is emitted exactly
when nullCount > 0; its severity is `warning` exactly when the displayed
percentage — the ratio rounded to one decimal place — exceeds 50.0,
equivalently when 2000·nullCount ≥ 1001·total; otherwise the severity is
`info`. -/
theorem C3_null_ratio_severity (header : String) (values : List (Option String))
    (hpos : 0 < nullCount values) :
    (nullCheckColumn header values).map Finding.severity =
      (if 1001 * values.length ≤ 2000 * nullCount values then ["warning"] else ["info"]) ∧
    (nullCheckColumn header values).map Finding.column = [header] ∧
    (nullCheckColumn header values).map Finding.type = ["nulls"] := by
  have htot : 0 < values.length :=
    lt_of_lt_of_le hpos (List.length_filter_le _ _)
  have hiff := nullPercent10_gt_iff (nullCount values) values.length htot
  unfold nullCheckColumn
  rw [if_pos hpos]
  by_cases hc : nullPercent10 (nullCount values) values.length > 500
  · rw [if_pos hc, if_pos (hiff.1 hc)]
    exact ⟨rfl, rfl, rfl⟩
  · rw [if_neg hc, if_neg (fun hh => hc (hiff.2 hh))]
    exact ⟨rfl, rfl, rfl⟩

theorem C3_witness :
    0 < nullCount [none, some "a", some "b"] ∧
    (nullCheckColumn "c" [none, some "a", some "b"]).map Finding.severity = ["info"] := by
  refine ⟨by decide, ?_⟩
  rw [(C3_null_ratio_severity "c" [none, some "a", some "b"] (by decide)).1]
  decide

theorem dateCheckColumn_single (dateParse : String → Bool) (header : String)
    (hdp : dateParse "2024-13-45" = false) :
    dateCheckColumn dateParse header ["2024-13-45"] =
      [⟨"date_format", header,
        "Column \"" ++ header ++ "\" has " ++ toString (1 : Nat) ++ " invalid date values",
        "Examples: \"2024-13-45\"", "error"⟩] := by
  have hpat : hasDatePattern "2024-13-45" = true := by decide
  have hfilt : (["2024-13-45"] : List String).filter hasDatePattern = ["2024-13-45"] := by
    rw [List.filter_cons]
    rw [hpat]
    rfl
  have hinv : invalidDates dateParse ["2024-13-45"] = ["2024-13-45"] := by
    unfold invalidDates
    rw [List.filter_cons]
    rw [show (hasDatePattern "2024-13-45" && !dateParse "2024-13-45") = true by
      rw [hpat, hdp]; rfl]
    rfl
  unfold dateCheckColumn
  rw [if_neg (by decide), hfilt, if_pos (by decide), hinv,
    if_neg (by decide)]
  rfl

/-- C4: on a table containing a column whose non-empty values are exactly
`["2024-13-45"]` — which matches the date surface pattern but fails the
calendar parse — the validator's error bucket contains an error-severity
`date_format` finding for that column listing the value among its (up to
3) quoted examples. -/
theorem C4_invalid_date_error (dateParse : String → Bool) (headers : List String)
    (rows : List Row) (hcol : String) (hmem : hcol ∈ headers)
    (hvals : nonEmptyColumn rows hcol = ["2024-13-45"])
    (hdp : dateParse "2024-13-45" = false) :
    hasDatePattern "2024-13-45" = true ∧
    dateParseModel "2024-13-45" = false ∧
    ∃ f ∈ runValidationErrors dateParse headers rows,
      f.type = "date_format" ∧ f.column = hcol ∧ f.severity = "error" ∧
      f.message = "Column \"" ++ hcol ++ "\" has " ++ toString (1 : Nat) ++
        " invalid date values" ∧
      f.details = "Examples: \"2024-13-45\"" := by
  refine ⟨by decide, by decide, ?_⟩
  refine ⟨⟨"date_format", hcol,
    "Column \"" ++ hcol ++ "\" has " ++ toString (1 : Nat) ++ " invalid date values",
    "Examples: \"2024-13-45\"", "error"⟩, ?_, rfl, rfl, rfl, rfl, rfl⟩
  unfold runValidationErrors
  rw [List.mem_flatten]
  refine ⟨dateCheckColumn dateParse hcol (nonEmptyColumn rows hcol),
    List.mem_map.2 ⟨hcol, hmem, rfl⟩, ?_⟩
  rw [hvals, dateCheckColumn_single dateParse hcol hdp]
  exact List.mem_singleton.2 rfl

theorem C4_witness :
    nonEmptyColumn [(fun _ => some "2024-13-45" : Row)] "d" = ["2024-13-45"] ∧
    dateParseModel "2024-13-45" = false ∧
    ∃ f ∈ runValidationErrors dateParseModel ["d"] [(fun _ => some "2024-13-45" : Row)],
      f.type = "date_format" ∧ f.column = "d" ∧ f.severity = "error" := by
  refine ⟨by decide, by decide, ?_⟩
  obtain ⟨-, -, f, hf, h1, h2, h3, -, -⟩ :=
    C4_invalid_date_error dateParseModel ["d"] [(fun _ => some "2024-13-45" : Row)] "d"
      (by decide) (by decide) (by decide)
  exact ⟨f, hf, h1, h2, h3⟩

end CsvToSql
